import Mathlib

/-!
Verification development for the supervised shell-command executor in
`pilot/helpers/cli.py` (functions `enqueue_output`, `run_command`,
`terminate_process`, `execute_command`).

The executor is embedded shallowly:

* Pure fragments of `execute_command` (timeout clamping, the `cd `/`source `
  rewrite, result construction, the duplicate-suppressing final drain) are
  Lean functions translated line by line from the Python source.
* The polling control loop (lines 139-188) is modelled as a deterministic
  function over a trace of per-iteration environment observations: which
  lines each background drainer has enqueued since the previous iteration,
  whether `process.poll()` reports exit, whether the configured timeout has
  elapsed, and whether a `KeyboardInterrupt` arrived.
* The operating system visible to `terminate_process` is modelled as a list
  of live processes tagged with their process group (POSIX) / process tree
  root (Windows `taskkill /T`).
* Python string slicing `s[-n:]` and the substring operator `in` are
  modelled exactly, including the `s[-0:] = s` corner case.

The constants `MIN_COMMAND_RUN_TIME`, `MAX_COMMAND_RUN_TIME` and
`MAX_COMMAND_OUTPUT_LENGTH` are imported by the source from
`const.code_execution`, which is outside the slice; they are kept abstract
as explicit parameters.
-/

namespace Cli

/-- Python substring test: `pyContains hay needle` models the Python
expression `needle in hay` on strings (contiguous substring containment). -/
def pyContains (hay needle : String) : Bool :=
  decide (needle.data <:+: hay.data)

/-- Python negative-slice tail: `pyTail s n` models the Python expression
`s[-n:]` for a natural `n`.  Python's `-0` is `0`, so `s[-0:]` is the whole
string; for `n > 0` the slice keeps the last `min n (length s)` characters. -/
def pyTail (s : String) (n : Nat) : String :=
  if n = 0 then s else ⟨s.data.drop (s.data.length - n)⟩

/-- Timeout clamping, translated from `execute_command` lines 96-99:
`if timeout < 1000: timeout *= 1000` followed by
`timeout = min(max(timeout, MIN_COMMAND_RUN_TIME), MAX_COMMAND_RUN_TIME)`.
`minRun` and `maxRun` stand for the constants `MIN_COMMAND_RUN_TIME` and
`MAX_COMMAND_RUN_TIME` from `const.code_execution` (not in the slice). -/
def clampTimeout (minRun maxRun t : Int) : Int :=
  let t1 := if t < 1000 then t * 1000 else t
  min (max t1 minRun) maxRun

/-- The shell-builtin workaround, translated from `execute_command` lines
116-117: `if "cd " in command or "source " in command:` the command is
replaced by `f"bash -c " + apostrophe + command + apostrophe`. -/
def rewriteCommand (command : String) : String :=
  if pyContains command "cd " || pyContains command "source " then
    "bash -c \x27" ++ command ++ "\x27"
  else
    command

/-- Result construction, translated from `execute_command` lines 194-198:
start from the empty string, prepend a labeled stderr section when
`stderr_output` is non-empty, then always append the labeled stdout
section; each buffer is tail-sliced to `maxOut` characters
(`MAX_COMMAND_OUTPUT_LENGTH`). -/
def makeReturnValue (output stderrOutput : String) (maxOut : Nat) : String :=
  let rv := if stderrOutput ≠ "" then
      "stderr:\n```\n" ++ pyTail stderrOutput maxOut ++ "\n```\n"
    else ""
  rv ++ ("stdout:\n```\n" ++ pyTail output maxOut ++ "\n```")

/-- The duplicate-suppressing final drain, translated from `execute_command`
lines 149-153: `while not q.empty(): output_line = q.get_nowait();
if output_line not in output: output += output_line`.  The containment test
is Python substring containment against the evolving buffer. -/
def finalDrain (buf : String) : List String → String
  | [] => buf
  | l :: ls =>
    if pyContains buf l then finalDrain buf ls
    else finalDrain (buf ++ l) ls

/-- One iteration's environment observations for the control loop of
`execute_command` (lines 140-179): `newOut` / `newErr` are the lines the two
drainer threads have enqueued since the previous iteration (plus, on the
exit iteration, lines arriving during the `time.sleep(0.1)` grace wait),
`exited` is whether `process.poll()` reports a finished process, `timedOut`
is whether `elapsed_time * 1000 > timeout` holds at this iteration, and
`kbInt` is whether a `KeyboardInterrupt` arrives at this iteration. -/
structure LoopIter where
  newOut : List String
  newErr : List String
  exited : Bool
  timedOut : Bool
  kbInt : Bool
deriving Repr, DecidableEq

/-- The mutable locals of the control loop: the two accumulated buffers
`output` and `stderr_output` and the contents of the two queues `q` and
`q_stderr`. -/
structure LoopState where
  output : String
  stderrOutput : String
  qOut : List String
  qErr : List String
deriving Repr, DecidableEq

/-- The two exceptions caught by `execute_command` lines 181-186. -/
inductive LoopAbort where
  | timeout
  | keyboardInterrupt
deriving Repr, DecidableEq

/-- Non-blocking `q.get_nowait()` wrapped in `try ... except queue.Empty`:
returns the queue head (or `none` when empty) and the remaining queue. -/
def popQ : List String → Option String × List String
  | [] => (none, [])
  | l :: ls => (some l, ls)

/-- The `if line:` guard of lines 167-168 and 177-178: a popped line is
appended to its buffer only when it is truthy (non-empty). -/
def stepAppend (buf : String) : Option String → String
  | none => buf
  | some l => if l = "" then buf else buf ++ l

/-- One normal loop iteration (lines 162-179 of `execute_command`): one
non-blocking pop from the stdout queue appended to `output` when non-empty,
then one non-blocking pop from the stderr queue appended to
`stderr_output` when non-empty. -/
def normalStep (s : LoopState) : LoopState :=
  ⟨stepAppend s.output (popQ s.qOut).1, stepAppend s.stderrOutput (popQ s.qErr).1,
   (popQ s.qOut).2, (popQ s.qErr).2⟩

/-- The polling control loop of `execute_command` lines 140-179, as a
function of the iteration trace.  Each iteration first reflects what the
drainers enqueued, then follows lines 146-179 in source order: a
`KeyboardInterrupt` can abort the iteration (caught on line 181); if
`process.poll()` is not `None`, the remaining **stdout** queue is drained
with duplicate suppression and the loop breaks (lines 146-154) — the stderr
queue is not drained (the drain on lines 190-192 is commented out); else if
a timeout is configured and exceeded, `TimeoutError` is raised (line 158);
else one non-blocking pop from the stdout queue and one from the stderr
queue, each appended to its buffer when non-empty (lines 162-179). -/
def runLoop (timeoutSet : Bool) : LoopState → List LoopIter → LoopState × Option LoopAbort
  | s, [] => (s, none)
  | s, it :: rest =>
    let s1 : LoopState :=
      ⟨s.output, s.stderrOutput, s.qOut ++ it.newOut, s.qErr ++ it.newErr⟩
    if it.kbInt then (s1, some LoopAbort.keyboardInterrupt)
    else if it.exited then
      (⟨finalDrain s1.output s1.qOut, s1.stderrOutput, [], s1.qErr⟩, none)
    else if timeoutSet && it.timedOut then (s1, some LoopAbort.timeout)
    else runLoop timeoutSet (normalStep s1) rest

/-- The drainer `enqueue_output` (lines 19-24): `for line in
iter(out.readline, ""): if interrupted: break; q.put(line)`.  `flag k` is
the value of the module-level `interrupted` flag when it is sampled before
enqueueing the k-th line; the returned list is what reaches the queue. -/
def enqueueOutput (flag : Nat → Bool) : List String → List String
  | [] => []
  | l :: ls => if flag 0 then [] else l :: enqueueOutput (fun n => flag (n + 1)) ls

/-- Spawn failure (`subprocess.Popen` raising), the only exceptional path
`execute_command` lets escape to its caller. -/
inductive SpawnError where
  | spawnFailure
deriving Repr, DecidableEq

deriving instance DecidableEq for Except

/-- Modelled from the spec: `get_command_run_from_hash_id` lives in
`database.database`, outside the slice; per the spec the history collaborator
is keyed by `(project-scope, command-text)`, modelled as an association list
from command text to the persisted response within one project scope. -/
def lookupRun (store : List (String × String)) (cmd : String) : Option String :=
  (store.find? (fun p => p.1 == cmd)).map (fun p => p.2)

/-- The environment of one `execute_command` invocation: the persisted
history store, the project's `skip_steps` flag, the `force` flag, whether a
timeout was configured, whether `subprocess.Popen` fails, the control-loop
iteration trace, and the `MAX_COMMAND_OUTPUT_LENGTH` cap. -/
structure ExecEnv where
  store : List (String × String)
  skipSteps : Bool
  force : Bool
  timeoutSet : Bool
  spawnFails : Bool
  trace : List LoopIter
  maxOut : Nat
deriving Repr, DecidableEq

/-- The observable outcome of one `execute_command` invocation: the returned
string, the history store after the call, whether the confirmation prompt
was shown, whether a process was spawned, whether `terminate_process` was
invoked, the value of the function-local `interrupted` variable at return,
and the value of the module-level `interrupted` flag at return. -/
structure ExecOutcome where
  result : String
  store : List (String × String)
  promptShown : Bool
  spawned : Bool
  terminateCalled : Bool
  localInterrupted : Bool
  globalInterrupted : Bool
deriving Repr, DecidableEq

/-- The body of `execute_command` (lines 83-202) as a function of the
module-level `interrupted` flag `g`, the invocation environment, the command
string and the confirmation-prompt reply.

Scoping note, which the translation must reflect: the assignments
`interrupted = False` (line 137) and `interrupted = True` (line 182) appear
in a function with no `global interrupted` declaration, so by Python scoping
rules they bind a function-local variable that shadows the module-level flag
read by `enqueue_output`; the module-level flag `g` is therefore returned
unchanged in `globalInterrupted`, while `localInterrupted` reports the local
one (set exactly on the caught timeout / keyboard-interrupt paths).

Control flow: the prompt (lines 101-112) is shown when `force` is false and
its reply is bound to `answer`, which is never read afterwards; the command
is rewritten (lines 115-117); the history store is consulted (lines
120-126) and on a hit with `skip_steps` the stored response is returned
with nothing spawned; otherwise the process is spawned (a `Popen` failure
propagates), the control loop runs, an abort invokes `terminate_process`
(line 188), the result is assembled (lines 194-198, `return_value` is still
`None` on every path reaching line 194) and persisted via
`save_command_run` (line 200, modelled from the spec as appending to the
association list). -/
def executeCommand (g : Bool) (env : ExecEnv) (command reply : String) :
    Except SpawnError ExecOutcome :=
  let promptShown := !env.force
  let answer := reply
  let cmd := rewriteCommand command
  if ((lookupRun env.store cmd).isSome && env.skipSteps) = true then
    Except.ok ⟨(lookupRun env.store cmd).getD "", env.store, promptShown,
      false, false, false, g⟩
  else if env.spawnFails then Except.error SpawnError.spawnFailure
  else
    let r := runLoop env.timeoutSet ⟨"", "", [], []⟩ env.trace
    let rv := makeReturnValue r.1.output r.1.stderrOutput env.maxOut
    Except.ok ⟨rv, env.store ++ [(cmd, rv)], promptShown,
      true, r.2.isSome, r.2.isSome, g⟩

/-- A live OS process as seen by `terminate_process`: its pid and the
process group it belongs to (POSIX `os.setsid` group; on Windows the same
field stands for the root of the process tree that `taskkill /T` kills). -/
structure OsProc where
  pid : Int
  group : Int
deriving Repr, DecidableEq

/-- Models the OS primitive `os.killpg(pid, signal.SIGKILL)`: kills every
process of the given group atomically, or fails with `OSError` (modelled as
`Except.error ()`) when no such process exists. -/
def killpg (s : List OsProc) (pgid : Int) : Except Unit (List OsProc) :=
  if s.any (fun p => p.group == pgid) then
    Except.ok (s.filter (fun p => !(p.group == pgid)))
  else Except.error ()

/-- Models `subprocess.run(["taskkill", "/F", "/T", "/PID", str(pid)])`:
forcefully kills the process tree rooted at `pid` and reports the tool's
exit code; without `check=True` a failed `taskkill` only yields a non-zero
exit code, it raises nothing. -/
def taskkillTree (s : List OsProc) (pid : Int) : List OsProc × Int :=
  if s.any (fun p => p.group == pid) then
    (s.filter (fun p => !(p.group == pid)), 0)
  else (s, 1)

/-- `terminate_process` (lines 69-81): on Windows run `taskkill` (its exit
code is ignored and `CalledProcessError` cannot occur without `check=True`);
on POSIX call `os.killpg` and swallow `OSError`. -/
def terminateProcess (windows : Bool) (s : List OsProc) (pid : Int) : List OsProc :=
  if windows then (taskkillTree s pid).1
  else
    match killpg s pid with
    | Except.ok s2 => s2
    | Except.error _ => s

/-- Concatenation of a batch of lines, for stating buffer conservation. -/
def concatStr : List String → String
  | [] => ""
  | l :: ls => l ++ concatStr ls

/-- All stderr lines a trace delivers to the stderr queue, in order. -/
def allNewErr : List LoopIter → List String
  | [] => []
  | it :: rest => it.newErr ++ allNewErr rest

/-- All stdout lines a trace delivers to the stdout queue, in order. -/
def allNewOut : List LoopIter → List String
  | [] => []
  | it :: rest => it.newOut ++ allNewOut rest

/-- Specification companion of `finalDrain`: the sublist of the drained
batch that lines 149-153 actually append, in order — a queued line is kept
exactly when the evolving buffer does not already contain it verbatim. -/
def finalDrainKept (buf : String) : List String → List String
  | [] => []
  | l :: ls =>
    if pyContains buf l then finalDrainKept buf ls
    else l :: finalDrainKept (buf ++ l) ls

/-- A control-loop iteration on which the loop neither aborts nor observes
process exit (transition 4 of the spec's state machine). -/
def normalIter (timeoutSet : Bool) (it : LoopIter) : Prop :=
  it.kbInt = false ∧ it.exited = false ∧ (timeoutSet && it.timedOut) = false

instance (timeoutSet : Bool) (it : LoopIter) : Decidable (normalIter timeoutSet it) := by
  unfold normalIter
  infer_instance

/-- Characterisation of the Python tail slice for a positive cap: it keeps
the last `min n (length s)` characters and is a suffix of the buffer. -/
theorem pyTail_spec (s : String) (n : Nat) (hn : 0 < n) :
    (pyTail s n).length ≤ n ∧
    (pyTail s n).length = min n s.length ∧
    (pyTail s n).data <:+ s.data := by
  have hne : n ≠ 0 := Nat.pos_iff_ne_zero.mp hn
  unfold pyTail
  rw [if_neg hne]
  refine ⟨?_, ?_, List.drop_suffix _ _⟩
  · show (s.data.drop (s.data.length - n)).length ≤ n
    rw [List.length_drop]
    omega
  · show (s.data.drop (s.data.length - n)).length = min n s.data.length
    rw [List.length_drop]
    omega

/-- With a cap of at least 6 characters, the tail slice of the stdout buffer
produced by `echo hello` is the whole buffer. -/
theorem pyTail_hello (n : Nat) (hn : 6 ≤ n) : pyTail "hello\n" n = "hello\n" := by
  have hne : n ≠ 0 := by omega
  have hlen : ("hello\n".data).length = 6 := by decide
  unfold pyTail
  rw [if_neg hne]
  have hz : ("hello\n".data).length - n = 0 := by omega
  rw [hz, List.drop_zero]

/-- The Python substring test succeeds exactly when the needle is a
contiguous infix of the haystack. -/
theorem pyContains_iff (hay needle : String) :
    pyContains hay needle = true ↔ needle.data <:+: hay.data := by
  simp [pyContains]

/-- The empty string is a substring of everything, as in Python. -/
theorem pyContains_empty (hay : String) : pyContains hay "" = true := by
  rw [pyContains_iff]
  exact List.nil_infix

/-- Substring containment survives appending further text to the buffer. -/
theorem pyContains_append_left (b x l : String) (h : pyContains b l = true) :
    pyContains (b ++ x) l = true := by
  rw [pyContains_iff] at h ⊢
  rw [String.data_append]
  exact h.trans (List.prefix_append b.data x.data).isInfix

/-- A line just appended to the buffer is contained in the buffer. -/
theorem pyContains_append_self (b l : String) : pyContains (b ++ l) l = true := by
  rw [pyContains_iff, String.data_append]
  exact (List.suffix_append b.data l.data).isInfix

/-- The truthiness-guarded append never removes an already-contained line. -/
theorem stepAppend_contains (b l : String) (o : Option String)
    (h : pyContains b l = true) : pyContains (stepAppend b o) l = true := by
  match o with
  | none => exact h
  | some x =>
    by_cases hx : x = ""
    · simp only [stepAppend, if_pos hx]
      exact h
    · simp only [stepAppend, if_neg hx]
      exact pyContains_append_left b x l h

/-- The duplicate-suppressing final drain never removes an
already-contained line. -/
theorem finalDrain_contains (ls : List String) :
    ∀ (b l : String), pyContains b l = true →
      pyContains (finalDrain b ls) l = true := by
  induction ls with
  | nil => intro b l h; exact h
  | cons a ls ih =>
    intro b l h
    unfold finalDrain
    split
    · exact ih b l h
    · exact ih (b ++ a) l (pyContains_append_left b a l h)

/-- After the final drain, every line of the drained batch is contained in
the buffer: it was either appended, or suppressed precisely because it was
already present. -/
theorem finalDrain_mem (ls : List String) :
    ∀ (b l : String), l ∈ ls → pyContains (finalDrain b ls) l = true := by
  induction ls with
  | nil => intro b l h; cases h
  | cons a ls ih =>
    intro b l h
    rcases List.mem_cons.mp h with rfl | hmem
    · unfold finalDrain
      split
      · next hc => exact finalDrain_contains ls b l hc
      · exact finalDrain_contains ls (b ++ l) l (pyContains_append_self b l)
    · unfold finalDrain
      split
      · exact ih b l hmem
      · exact ih (b ++ a) l hmem

/-- Once a line is contained in the stdout buffer, it stays contained for
the remainder of the control loop. -/
theorem runLoop_output_contains (ts : Bool) (tr : List LoopIter) :
    ∀ (s : LoopState) (l : String), pyContains s.output l = true →
      pyContains ((runLoop ts s tr).1.output) l = true := by
  induction tr with
  | nil => intro s l h; exact h
  | cons it rest ih =>
    intro s l h
    unfold runLoop
    split
    · exact h
    · split
      · exact finalDrain_contains _ _ _ h
      · split
        · exact h
        · exact ih (normalStep ⟨s.output, s.stderrOutput,
            s.qOut ++ it.newOut, s.qErr ++ it.newErr⟩) l
            (stepAppend_contains _ _ _ h)

/-- Concatenation of line batches distributes over list append. -/
theorem concatStr_append (a b : List String) :
    concatStr (a ++ b) = concatStr a ++ concatStr b := by
  induction a with
  | nil => simp [concatStr, String.empty_append]
  | cons l a ih => simp [concatStr, ih, String.append_assoc]

/-- One non-blocking pop conserves the stream content: buffer plus queued
text is unchanged, provided queued lines are non-empty (the `if line:`
guard would silently discard an empty line). -/
theorem stepAppend_popQ_conserves (m : List String) (err : String)
    (hne : ∀ l ∈ m, l ≠ "") :
    stepAppend err (popQ m).1 ++ concatStr (popQ m).2 = err ++ concatStr m := by
  match m with
  | [] => rfl
  | l :: t =>
    have hl : l ≠ "" := hne l (List.mem_cons_self l t)
    show stepAppend err (some l) ++ concatStr t = err ++ concatStr (l :: t)
    simp only [stepAppend, if_neg hl]
    show err ++ l ++ concatStr t = err ++ (l ++ concatStr t)
    exact String.append_assoc err l (concatStr t)

/-- A popped-or-still-queued case split: a line of the queue is either
contained in the buffer after the pop-and-append, or still in the queue. -/
theorem popQ_cover (m : List String) (out l : String) (h : l ∈ m) :
    pyContains (stepAppend out (popQ m).1) l = true ∨ l ∈ (popQ m).2 := by
  match m with
  | [] => cases h
  | a :: t =>
    rcases List.mem_cons.mp h with rfl | hmem
    · left
      show pyContains (stepAppend out (some l)) l = true
      by_cases he : l = ""
      · simp only [stepAppend, if_pos he]
        subst he
        exact pyContains_empty out
      · simp only [stepAppend, if_neg he]
        exact pyContains_append_self out l
    · right
      exact hmem

/-- What remains after a pop is part of the original queue. -/
theorem popQ_mem_subset (m : List String) (l : String) (h : l ∈ (popQ m).2) :
    l ∈ m := by
  match m with
  | [] => cases h
  | a :: t => exact List.mem_cons_of_mem a h

/-- A trace of normal iterations followed by an observed process exit ends
the loop in the `COMPLETED` state: no exception reaches the handler. -/
theorem runLoop_exit_none (ts : Bool) : ∀ (pre : List LoopIter) (s : LoopState),
    (∀ it ∈ pre, normalIter ts it) →
    ∀ (exitIt : LoopIter), exitIt.kbInt = false → exitIt.exited = true →
    (runLoop ts s (pre ++ [exitIt])).2 = none := by
  intro pre
  induction pre with
  | nil =>
    intro s _ exitIt hkb hex
    simp [runLoop, hkb, hex]
  | cons it pre ih =>
    intro s hnorm exitIt hkb hex
    have hn : normalIter ts it := hnorm it (List.mem_cons_self it pre)
    obtain ⟨hk, hx, ht⟩ := hn
    simp only [List.cons_append]
    show (runLoop ts s (it :: (pre ++ [exitIt]))).2 = none
    unfold runLoop
    rw [if_neg (by simp [hk]), if_neg (by simp [hx]), if_neg (by simp [ht])]
    exact ih _ (fun j hj => hnorm j (List.mem_cons_of_mem it hj)) exitIt hkb hex

/-- Conservation of the stderr stream up to process exit: after a trace of
normal iterations ending in an observed exit, the accumulated stderr buffer
plus the text still sitting in the stderr queue equals the initial buffer
plus everything that was ever enqueued, in FIFO order.  The lines still
queued at exit are exactly the ones the result never receives: the
post-exit drain reads only the stdout queue. -/
theorem runLoop_stderr_conservation (ts : Bool) : ∀ (pre : List LoopIter) (s : LoopState),
    (∀ it ∈ pre, normalIter ts it) →
    (∀ l ∈ s.qErr, l ≠ "") →
    (∀ it ∈ pre, ∀ l ∈ it.newErr, l ≠ "") →
    ∀ (exitIt : LoopIter), exitIt.kbInt = false → exitIt.exited = true →
    (runLoop ts s (pre ++ [exitIt])).1.stderrOutput
        ++ concatStr ((runLoop ts s (pre ++ [exitIt])).1.qErr)
      = s.stderrOutput ++ concatStr (s.qErr ++ allNewErr (pre ++ [exitIt])) := by
  intro pre
  induction pre with
  | nil =>
    intro s _ _ _ exitIt hkb hex
    simp [runLoop, hkb, hex, allNewErr, List.append_nil]
  | cons it pre ih =>
    intro s hnorm hq hnew exitIt hkb hex
    obtain ⟨hk, hx, ht⟩ := hnorm it (List.mem_cons_self it pre)
    simp only [List.cons_append]
    show (runLoop ts s (it :: (pre ++ [exitIt]))).1.stderrOutput
        ++ concatStr ((runLoop ts s (it :: (pre ++ [exitIt]))).1.qErr)
      = s.stderrOutput ++ concatStr (s.qErr ++ allNewErr (it :: (pre ++ [exitIt])))
    unfold runLoop
    rw [if_neg (by simp [hk]), if_neg (by simp [hx]), if_neg (by simp [ht])]
    have hm : ∀ l ∈ s.qErr ++ it.newErr, l ≠ "" := by
      intro l hl
      rcases List.mem_append.mp hl with h1 | h2
      · exact hq l h1
      · exact hnew it (List.mem_cons_self it pre) l h2
    have hq2 : ∀ l ∈ (normalStep ⟨s.output, s.stderrOutput,
        s.qOut ++ it.newOut, s.qErr ++ it.newErr⟩).qErr, l ≠ "" := by
      intro l hl
      exact hm l (popQ_mem_subset _ l hl)
    have hrec := ih (normalStep ⟨s.output, s.stderrOutput,
        s.qOut ++ it.newOut, s.qErr ++ it.newErr⟩)
      (fun j hj => hnorm j (List.mem_cons_of_mem it hj)) hq2
      (fun j hj => hnew j (List.mem_cons_of_mem it hj)) exitIt hkb hex
    rw [hrec]
    show stepAppend s.stderrOutput (popQ (s.qErr ++ it.newErr)).1
        ++ concatStr ((popQ (s.qErr ++ it.newErr)).2 ++ allNewErr (pre ++ [exitIt]))
      = s.stderrOutput ++ concatStr (s.qErr ++ (it.newErr ++ allNewErr (pre ++ [exitIt])))
    rw [concatStr_append, ← String.append_assoc,
      stepAppend_popQ_conserves _ _ hm, String.append_assoc,
      ← concatStr_append, List.append_assoc]

/-- Every stdout line delivered up to and including the exit iteration is
contained in the final stdout buffer: lines popped during normal iterations
are appended outright, and lines of the post-exit batch are either appended
or suppressed precisely because the buffer already contains them. -/
theorem runLoop_stdout_contained (ts : Bool) : ∀ (pre : List LoopIter) (s : LoopState),
    (∀ it ∈ pre, normalIter ts it) →
    ∀ (exitIt : LoopIter), exitIt.kbInt = false → exitIt.exited = true →
    ∀ l, (l ∈ s.qOut ∨ (∃ it ∈ pre, l ∈ it.newOut) ∨ l ∈ exitIt.newOut) →
    pyContains ((runLoop ts s (pre ++ [exitIt])).1.output) l = true := by
  intro pre
  induction pre with
  | nil =>
    intro s _ exitIt hkb hex l hl
    have hmem : l ∈ s.qOut ++ exitIt.newOut := by
      rcases hl with h1 | h2 | h3
      · exact List.mem_append_left _ h1
      · obtain ⟨it, hit, _⟩ := h2; cases hit
      · exact List.mem_append_right _ h3
    simp only [List.nil_append]
    show pyContains ((runLoop ts s [exitIt]).1.output) l = true
    unfold runLoop
    rw [if_neg (by simp [hkb]), if_pos (by simp [hex])]
    exact finalDrain_mem _ _ _ hmem
  | cons it pre ih =>
    intro s hnorm exitIt hkb hex l hl
    obtain ⟨hk, hx, ht⟩ := hnorm it (List.mem_cons_self it pre)
    simp only [List.cons_append]
    show pyContains ((runLoop ts s (it :: (pre ++ [exitIt]))).1.output) l = true
    unfold runLoop
    rw [if_neg (by simp [hk]), if_neg (by simp [hx]), if_neg (by simp [ht])]
    have hpre : ∀ j ∈ pre, normalIter ts j :=
      fun j hj => hnorm j (List.mem_cons_of_mem it hj)
    rcases hl with h1 | h2 | h3
    · rcases popQ_cover (s.qOut ++ it.newOut) s.output l
        (List.mem_append_left _ h1) with hc | hq
      · exact runLoop_output_contains ts (pre ++ [exitIt]) _ l hc
      · exact ih _ hpre exitIt hkb hex l (Or.inl hq)
    · obtain ⟨j, hj, hlj⟩ := h2
      rcases List.mem_cons.mp hj with rfl | hj2
      · rcases popQ_cover (s.qOut ++ j.newOut) s.output l
          (List.mem_append_right _ hlj) with hc | hq
        · exact runLoop_output_contains ts (pre ++ [exitIt]) _ l hc
        · exact ih _ hpre exitIt hkb hex l (Or.inl hq)
      · exact ih _ hpre exitIt hkb hex l (Or.inr (Or.inl ⟨j, hj2, hlj⟩))
    · exact ih _ hpre exitIt hkb hex l (Or.inr (Or.inr h3))

/-- The final drain is the buffer followed by exactly its kept sublist:
`finalDrain` appends the `finalDrainKept` lines in order and nothing else. -/
theorem finalDrain_eq_kept (ls : List String) :
    ∀ buf, finalDrain buf ls = buf ++ concatStr (finalDrainKept buf ls) := by
  induction ls with
  | nil =>
    intro buf
    simp only [finalDrain, finalDrainKept, concatStr]
    exact (String.append_empty buf).symm
  | cons l ls ih =>
    intro buf
    by_cases h : pyContains buf l = true
    · simp only [finalDrain, finalDrainKept]
      rw [if_pos h, if_pos h]
      exact ih buf
    · simp only [finalDrain, finalDrainKept]
      rw [if_neg h, if_neg h, ih (buf ++ l)]
      show buf ++ l ++ concatStr (finalDrainKept (buf ++ l) ls)
        = buf ++ concatStr (l :: finalDrainKept (buf ++ l) ls)
      simp only [concatStr]
      exact String.append_assoc buf l _

/-- FIFO conservation of the stdout stream up to process exit: for a trace
of normal iterations ending in an observed exit (all queued stdout lines
non-empty), the arrival sequence of stdout lines splits into the lines
popped during the loop and the lines still queued when the exit is
observed, and the final stdout buffer is the initial buffer, followed by
the popped lines verbatim in arrival order, followed by the
duplicate-filtered remainder in order. -/
theorem runLoop_stdout_conservation (ts : Bool) : ∀ (pre : List LoopIter) (s : LoopState),
    (∀ it ∈ pre, normalIter ts it) →
    (∀ l ∈ s.qOut, l ≠ "") →
    (∀ it ∈ pre, ∀ l ∈ it.newOut, l ≠ "") →
    ∀ (exitIt : LoopIter), exitIt.kbInt = false → exitIt.exited = true →
    ∃ processed stillQueued : List String,
      s.qOut ++ allNewOut (pre ++ [exitIt]) = processed ++ stillQueued ∧
      (runLoop ts s (pre ++ [exitIt])).1.output
        = (s.output ++ concatStr processed)
          ++ concatStr (finalDrainKept (s.output ++ concatStr processed) stillQueued) := by
  intro pre
  induction pre with
  | nil =>
    intro s _ hq _ exitIt hkb hex
    refine ⟨[], s.qOut ++ exitIt.newOut, ?_, ?_⟩
    · simp [allNewOut]
    · simp only [List.nil_append]
      show (runLoop ts s [exitIt]).1.output
        = (s.output ++ concatStr [])
          ++ concatStr (finalDrainKept (s.output ++ concatStr []) (s.qOut ++ exitIt.newOut))
      unfold runLoop
      rw [if_neg (by simp [hkb]), if_pos (by simp [hex])]
      have h0 : s.output ++ concatStr [] = s.output := String.append_empty s.output
      rw [h0]
      exact finalDrain_eq_kept (s.qOut ++ exitIt.newOut) s.output
  | cons it pre ih =>
    intro s hnorm hq hnew exitIt hkb hex
    obtain ⟨hk, hx, ht⟩ := hnorm it (List.mem_cons_self it pre)
    have hpre : ∀ j ∈ pre, normalIter ts j :=
      fun j hj => hnorm j (List.mem_cons_of_mem it hj)
    have hnw : ∀ j ∈ pre, ∀ l ∈ j.newOut, l ≠ "" :=
      fun j hj => hnew j (List.mem_cons_of_mem it hj)
    have hm : ∀ l ∈ s.qOut ++ it.newOut, l ≠ "" := by
      intro l hl
      rcases List.mem_append.mp hl with h1 | h2
      · exact hq l h1
      · exact hnew it (List.mem_cons_self it pre) l h2
    simp only [List.cons_append]
    show ∃ processed stillQueued : List String,
      s.qOut ++ allNewOut (it :: (pre ++ [exitIt])) = processed ++ stillQueued ∧
      (runLoop ts s (it :: (pre ++ [exitIt]))).1.output = _
    unfold runLoop
    rw [if_neg (by simp [hk]), if_neg (by simp [hx]), if_neg (by simp [ht])]
    rcases hsplit : s.qOut ++ it.newOut with _ | ⟨a, t⟩
    · obtain ⟨P, Q, h1, h2⟩ := ih
        (normalStep ⟨s.output, s.stderrOutput, [], s.qErr ++ it.newErr⟩) hpre
        (by intro l hl; simp [normalStep, popQ] at hl) hnw exitIt hkb hex
      refine ⟨P, Q, ?_, ?_⟩
      · have hq0 : s.qOut = [] := (List.append_eq_nil.mp hsplit).1
        have hn0 : it.newOut = [] := (List.append_eq_nil.mp hsplit).2
        have h1' : allNewOut (pre ++ [exitIt]) = P ++ Q := by
          simpa [normalStep, popQ] using h1
        simp only [allNewOut]
        rw [hq0, hn0]
        simpa using h1'
      · simpa [normalStep, popQ, stepAppend] using h2
    · have ha : a ≠ "" := hm a (by rw [hsplit]; exact List.mem_cons_self a t)
      have hq' : ∀ l ∈ t, l ≠ "" := by
        intro l hl
        exact hm l (by rw [hsplit]; exact List.mem_cons_of_mem a hl)
      obtain ⟨P, Q, h1, h2⟩ := ih
        (normalStep ⟨s.output, s.stderrOutput, a :: t, s.qErr ++ it.newErr⟩) hpre
        (by intro l hl; exact hq' l (by simpa [normalStep, popQ] using hl))
        hnw exitIt hkb hex
      refine ⟨a :: P, Q, ?_, ?_⟩
      · have h1' : t ++ allNewOut (pre ++ [exitIt]) = P ++ Q := by
          simpa [normalStep, popQ] using h1
        simp only [allNewOut]
        rw [← List.append_assoc, hsplit]
        simp [h1']
      · have key : s.output ++ concatStr (a :: P) = (s.output ++ a) ++ concatStr P := by
          simp only [concatStr]
          exact (String.append_assoc s.output a (concatStr P)).symm
        rw [key]
        simpa [normalStep, popQ, stepAppend, ha] using h2

/-- Unfolding of `executeCommand` on the history-replay path (lines
120-126): prior result found and `skip_steps` set. -/
theorem executeCommand_hist_eq (g : Bool) (env : ExecEnv) (command reply : String)
    (hh : ((lookupRun env.store (rewriteCommand command)).isSome && env.skipSteps) = true) :
    executeCommand g env command reply =
      Except.ok ⟨(lookupRun env.store (rewriteCommand command)).getD "", env.store,
        !env.force, false, false, false, g⟩ := by
  simp [executeCommand, hh]

/-- Unfolding of `executeCommand` on the execution path: no history replay
and a successful spawn; the result is assembled from the loop's final
buffers, persisted, and `terminate_process` was called exactly when the
loop aborted. -/
theorem executeCommand_run_eq (g : Bool) (env : ExecEnv) (command reply : String)
    (hh : ((lookupRun env.store (rewriteCommand command)).isSome && env.skipSteps) = false)
    (hs : env.spawnFails = false) :
    executeCommand g env command reply =
      Except.ok ⟨makeReturnValue
          (runLoop env.timeoutSet ⟨"", "", [], []⟩ env.trace).1.output
          (runLoop env.timeoutSet ⟨"", "", [], []⟩ env.trace).1.stderrOutput env.maxOut,
        env.store ++ [(rewriteCommand command,
          makeReturnValue
            (runLoop env.timeoutSet ⟨"", "", [], []⟩ env.trace).1.output
            (runLoop env.timeoutSet ⟨"", "", [], []⟩ env.trace).1.stderrOutput env.maxOut)],
        !env.force, true,
        (runLoop env.timeoutSet ⟨"", "", [], []⟩ env.trace).2.isSome,
        (runLoop env.timeoutSet ⟨"", "", [], []⟩ env.trace).2.isSome, g⟩ := by
  simp [executeCommand, hh, hs]

/-- Unfolding of `executeCommand` on the spawn-failure path: the `Popen`
exception is the one error that escapes to the caller. -/
theorem executeCommand_spawnFailure_eq (g : Bool) (env : ExecEnv) (command reply : String)
    (hh : ((lookupRun env.store (rewriteCommand command)).isSome && env.skipSteps) = false)
    (hs : env.spawnFails = true) :
    executeCommand g env command reply = Except.error SpawnError.spawnFailure := by
  simp [executeCommand, hh, hs]

end Cli

/-- C1: when the accumulated stderr is non-empty the result is a labeled
stderr section followed by a labeled stdout section, and when stderr is
empty it is the stdout section alone; each section holds the tail of its
buffer truncated to at most `MAX_COMMAND_OUTPUT_LENGTH` characters (head
discarded); and for `echo hello` (stdout buffer `hello\n`, empty stderr)
the result is `stdout:` newline backticks newline `hello` newline newline
backticks. -/
theorem c1_result_construction (out err : String) (maxOut : Nat) :
    (err ≠ "" →
      Cli.makeReturnValue out err maxOut =
        "stderr:\n```\n" ++ Cli.pyTail err maxOut ++ "\n```\n"
          ++ ("stdout:\n```\n" ++ Cli.pyTail out maxOut ++ "\n```")) ∧
    (err = "" →
      Cli.makeReturnValue out err maxOut =
        "stdout:\n```\n" ++ Cli.pyTail out maxOut ++ "\n```") ∧
    (0 < maxOut →
      (Cli.pyTail out maxOut).length ≤ maxOut ∧
      (Cli.pyTail out maxOut).length = min maxOut out.length ∧
      (Cli.pyTail out maxOut).data <:+ out.data) ∧
    (6 ≤ maxOut →
      Cli.makeReturnValue "hello\n" "" maxOut = "stdout:\n```\nhello\n\n```") := by
  refine ⟨?_, ?_, Cli.pyTail_spec out maxOut, ?_⟩
  · intro h
    simp [Cli.makeReturnValue, h]
  · intro h
    simp [Cli.makeReturnValue, h]
  · intro h
    simp [Cli.makeReturnValue, Cli.pyTail_hello maxOut h]

/-- Witness for C1 at concrete buffers: the `echo hello` scenario with the
cap at 50000, and the stderr-section shape for non-empty stderr. -/
theorem c1_result_construction_witness :
    Cli.makeReturnValue "hello\n" "" 50000 = "stdout:\n```\nhello\n\n```" ∧
    Cli.makeReturnValue "out\n" "err\n" 50000 =
      "stderr:\n```\n" ++ Cli.pyTail "err\n" 50000 ++ "\n```\n"
        ++ ("stdout:\n```\n" ++ Cli.pyTail "out\n" 50000 ++ "\n```") ∧
    (Cli.pyTail "out\n" 50000).length ≤ 50000 :=
  ⟨(c1_result_construction "hello\n" "" 50000).2.2.2 (by decide),
   (c1_result_construction "out\n" "err\n" 50000).1 (by decide),
   ((c1_result_construction "out\n" "err\n" 50000).2.2.1 (by decide)).1⟩

/-- C3: the clamped timeout always lies in the closed interval
`[MIN_COMMAND_RUN_TIME, MAX_COMMAND_RUN_TIME]` (for any consistent pair of
constants), and equals the requested value whenever that value already lies
in the interval; the hypothesis `1000 ≤ minRun` reflects that the
seconds-to-milliseconds heuristic on line 97-98 multiplies requests below
1000 before clamping. -/
theorem c3_timeout_clamped (minRun maxRun t : Int)
    (hle : minRun ≤ maxRun) (hmin : 1000 ≤ minRun) :
    minRun ≤ Cli.clampTimeout minRun maxRun t ∧
    Cli.clampTimeout minRun maxRun t ≤ maxRun ∧
    (minRun ≤ t → t ≤ maxRun → Cli.clampTimeout minRun maxRun t = t) := by
  unfold Cli.clampTimeout
  refine ⟨?_, ?_, ?_⟩
  · by_cases h : t < 1000 <;> simp [h, min_def, max_def] <;> split_ifs <;> omega
  · by_cases h : t < 1000 <;> simp [h, min_def, max_def] <;> split_ifs <;> omega
  · intro h1 h2
    have h : ¬ t < 1000 := by omega
    simp [h, min_def, max_def]
    split_ifs <;> omega

/-- Witness for C3 with the repository's constants 2000 and 60000: a request
of 5000 ms passes through unchanged, and a request of 500 ms is clamped
into the interval. -/
theorem c3_timeout_clamped_witness :
    Cli.clampTimeout 2000 60000 5000 = 5000 ∧
    2000 ≤ Cli.clampTimeout 2000 60000 500 ∧
    Cli.clampTimeout 2000 60000 500 ≤ 60000 :=
  ⟨(c3_timeout_clamped 2000 60000 5000 (by decide) (by decide)).2.2
      (by decide) (by decide),
   (c3_timeout_clamped 2000 60000 500 (by decide) (by decide)).1,
   (c3_timeout_clamped 2000 60000 500 (by decide) (by decide)).2.1⟩

/-- C9: a command string containing `cd ` or `source ` is spawned wrapped as
`bash -c` with the original string between single quotes; every other
command string is spawned unchanged. -/
theorem c9_shell_builtin_rewrite (c : String) :
    ((Cli.pyContains c "cd " || Cli.pyContains c "source ") = true →
      Cli.rewriteCommand c = "bash -c \x27" ++ c ++ "\x27") ∧
    ((Cli.pyContains c "cd " || Cli.pyContains c "source ") = false →
      Cli.rewriteCommand c = c) := by
  constructor
  · intro h
    simp [Cli.rewriteCommand, h]
  · intro h
    simp only [Bool.or_eq_false_iff] at h
    simp [Cli.rewriteCommand, h.1, h.2]

/-- Witness for C9: `cd foo` is wrapped, `ls -la` is left unchanged. -/
theorem c9_shell_builtin_rewrite_witness :
    Cli.rewriteCommand "cd foo" = "bash -c \x27cd foo\x27" ∧
    Cli.rewriteCommand "ls -la" = "ls -la" :=
  ⟨(c9_shell_builtin_rewrite "cd foo").1 (by decide),
   (c9_shell_builtin_rewrite "ls -la").2 (by decide)⟩

/-- C2 fails on the code in two ways, both exhibited here at concrete
inputs with natural process exit.  Stderr: a command that writes one stderr
line (`oops` newline) whose exit is observed on the first iteration leaves
the stderr buffer empty — the post-exit drain of lines 149-154 reads only
the stdout queue, the stderr drain of lines 190-192 is commented out.
Stdout: a command that writes the same line (`a` newline) twice, once
popped during the loop and once left for the post-exit batch, retains only
one copy — line 151 suppresses a final-batch line already contained in the
buffer.  Both contradict the claim that all N stdout and all M stderr lines
reach the buffers with no queued line dropped. -/
theorem c2_counterexample :
    Cli.allNewErr [⟨[], ["oops\n"], true, false, false⟩] = ["oops\n"] ∧
    (Cli.runLoop false ⟨"", "", [], []⟩ [⟨[], ["oops\n"], true, false, false⟩]).2 = none ∧
    (Cli.runLoop false ⟨"", "", [], []⟩ [⟨[], ["oops\n"], true, false, false⟩]).1.stderrOutput
      = "" ∧
    Cli.pyContains
      ((Cli.runLoop false ⟨"", "", [], []⟩
        [⟨[], ["oops\n"], true, false, false⟩]).1.stderrOutput) "oops\n" = false ∧
    Cli.allNewOut [⟨["a\n"], [], false, false, false⟩, ⟨["a\n"], [], true, false, false⟩]
      = ["a\n", "a\n"] ∧
    (Cli.runLoop false ⟨"", "", [], []⟩
      [⟨["a\n"], [], false, false, false⟩, ⟨["a\n"], [], true, false, false⟩]).2 = none ∧
    (Cli.runLoop false ⟨"", "", [], []⟩
      [⟨["a\n"], [], false, false, false⟩, ⟨["a\n"], [], true, false, false⟩]).1.output
      = "a\n" := by
  decide

/-- C2 (amended): for a command that exits naturally within its timeout
(a trace of normal iterations followed by an observed exit, every line
non-empty), the loop completes without an exception; the arrival sequence
of stdout lines splits into the lines popped during the loop and the lines
queued when exit is observed, and the final stdout buffer is the FIFO
concatenation of the popped lines followed by the final batch in order with
exactly those lines withheld that the evolving buffer already contains
verbatim (so every enqueued stdout line still occurs in the buffer); the
stderr buffer receives, in FIFO order, exactly the enqueued stderr lines
minus those still queued when the exit is observed, which are dropped
because the post-exit drain reads only stdout. -/
theorem c2_amended_drain (ts : Bool) (pre : List Cli.LoopIter) (exitIt : Cli.LoopIter)
    (s : Cli.LoopState)
    (hnorm : ∀ it ∈ pre, Cli.normalIter ts it)
    (hkb : exitIt.kbInt = false) (hex : exitIt.exited = true)
    (hqo : ∀ l ∈ s.qOut, l ≠ "")
    (hno : ∀ it ∈ pre, ∀ l ∈ it.newOut, l ≠ "")
    (hq : ∀ l ∈ s.qErr, l ≠ "")
    (hnew : ∀ it ∈ pre, ∀ l ∈ it.newErr, l ≠ "") :
    (Cli.runLoop ts s (pre ++ [exitIt])).2 = none ∧
    (∃ processed stillQueued : List String,
      s.qOut ++ Cli.allNewOut (pre ++ [exitIt]) = processed ++ stillQueued ∧
      (Cli.runLoop ts s (pre ++ [exitIt])).1.output
        = (s.output ++ Cli.concatStr processed)
          ++ Cli.concatStr
            (Cli.finalDrainKept (s.output ++ Cli.concatStr processed) stillQueued)) ∧
    (∀ l, (l ∈ s.qOut ∨ (∃ it ∈ pre, l ∈ it.newOut) ∨ l ∈ exitIt.newOut) →
      Cli.pyContains ((Cli.runLoop ts s (pre ++ [exitIt])).1.output) l = true) ∧
    (Cli.runLoop ts s (pre ++ [exitIt])).1.stderrOutput
        ++ Cli.concatStr ((Cli.runLoop ts s (pre ++ [exitIt])).1.qErr)
      = s.stderrOutput ++ Cli.concatStr (s.qErr ++ Cli.allNewErr (pre ++ [exitIt])) :=
  ⟨Cli.runLoop_exit_none ts pre s hnorm exitIt hkb hex,
   Cli.runLoop_stdout_conservation ts pre s hnorm hqo hno exitIt hkb hex,
   fun l hl => Cli.runLoop_stdout_contained ts pre s hnorm exitIt hkb hex l hl,
   Cli.runLoop_stderr_conservation ts pre s hnorm hq hnew exitIt hkb hex⟩

/-- Witness for the amended C2 on a concrete two-iteration run: one normal
iteration delivering one line per stream, then an exit iteration delivering
one more line per stream.  The loop completes, the stdout arrival sequence
splits with the popped line followed by the duplicate-filtered final batch,
the late stdout line is in the buffer, and the stderr conservation equation
holds (the late stderr line stays in the queue). -/
theorem c2_amended_drain_witness :
    (Cli.runLoop false ⟨"", "", [], []⟩
      ([⟨["a\n"], ["e1\n"], false, false, false⟩]
        ++ [⟨["b\n"], ["e2\n"], true, false, false⟩])).2 = none ∧
    (∃ processed stillQueued : List String,
      [] ++ Cli.allNewOut ([⟨["a\n"], ["e1\n"], false, false, false⟩]
          ++ [⟨["b\n"], ["e2\n"], true, false, false⟩]) = processed ++ stillQueued ∧
      (Cli.runLoop false ⟨"", "", [], []⟩
          ([⟨["a\n"], ["e1\n"], false, false, false⟩]
            ++ [⟨["b\n"], ["e2\n"], true, false, false⟩])).1.output
        = ("" ++ Cli.concatStr processed)
          ++ Cli.concatStr
            (Cli.finalDrainKept ("" ++ Cli.concatStr processed) stillQueued)) ∧
    Cli.pyContains
      ((Cli.runLoop false ⟨"", "", [], []⟩
        ([⟨["a\n"], ["e1\n"], false, false, false⟩]
          ++ [⟨["b\n"], ["e2\n"], true, false, false⟩])).1.output) "b\n" = true ∧
    (Cli.runLoop false ⟨"", "", [], []⟩
        ([⟨["a\n"], ["e1\n"], false, false, false⟩]
          ++ [⟨["b\n"], ["e2\n"], true, false, false⟩])).1.stderrOutput
      ++ Cli.concatStr ((Cli.runLoop false ⟨"", "", [], []⟩
          ([⟨["a\n"], ["e1\n"], false, false, false⟩]
            ++ [⟨["b\n"], ["e2\n"], true, false, false⟩])).1.qErr)
      = Cli.LoopState.stderrOutput ⟨"", "", [], []⟩
        ++ Cli.concatStr (Cli.LoopState.qErr ⟨"", "", [], []⟩
          ++ Cli.allNewErr ([⟨["a\n"], ["e1\n"], false, false, false⟩]
            ++ [⟨["b\n"], ["e2\n"], true, false, false⟩])) := by
  have h := c2_amended_drain false [⟨["a\n"], ["e1\n"], false, false, false⟩]
    ⟨["b\n"], ["e2\n"], true, false, false⟩ ⟨"", "", [], []⟩
    (by decide) rfl rfl (by decide) (by decide) (by decide) (by decide)
  exact ⟨h.1, h.2.1, h.2.2.1 "b\n" (by decide), h.2.2.2⟩

/-- C4: a timeout or keyboard interrupt during the control loop never
escapes `execute_command`: whenever the spawn succeeds the call returns a
value; on the execution path that value folds the loop's partial buffers
into the labeled result string (for every trace, aborting or not) and
`terminate_process` was called exactly when the loop aborted; only a spawn
failure surfaces as an exceptional error. -/
theorem c4_abort_folded (g : Bool) (env : Cli.ExecEnv) (command reply : String) :
    (env.spawnFails = false →
      ∃ o, Cli.executeCommand g env command reply = Except.ok o) ∧
    (env.spawnFails = false →
      ((Cli.lookupRun env.store (Cli.rewriteCommand command)).isSome && env.skipSteps) = false →
      Cli.executeCommand g env command reply =
        Except.ok ⟨Cli.makeReturnValue
            (Cli.runLoop env.timeoutSet ⟨"", "", [], []⟩ env.trace).1.output
            (Cli.runLoop env.timeoutSet ⟨"", "", [], []⟩ env.trace).1.stderrOutput env.maxOut,
          env.store ++ [(Cli.rewriteCommand command,
            Cli.makeReturnValue
              (Cli.runLoop env.timeoutSet ⟨"", "", [], []⟩ env.trace).1.output
              (Cli.runLoop env.timeoutSet ⟨"", "", [], []⟩ env.trace).1.stderrOutput env.maxOut)],
          !env.force, true,
          (Cli.runLoop env.timeoutSet ⟨"", "", [], []⟩ env.trace).2.isSome,
          (Cli.runLoop env.timeoutSet ⟨"", "", [], []⟩ env.trace).2.isSome, g⟩) ∧
    (((Cli.lookupRun env.store (Cli.rewriteCommand command)).isSome && env.skipSteps) = false →
      env.spawnFails = true →
      Cli.executeCommand g env command reply = Except.error Cli.SpawnError.spawnFailure) := by
  refine ⟨?_, ?_, ?_⟩
  · intro hs
    by_cases hh : ((Cli.lookupRun env.store
        (Cli.rewriteCommand command)).isSome && env.skipSteps) = true
    · exact ⟨_, Cli.executeCommand_hist_eq g env command reply hh⟩
    · exact ⟨_, Cli.executeCommand_run_eq g env command reply
        (Bool.not_eq_true _ ▸ Bool.of_not_eq_true hh) hs⟩
  · intro hs hh
    exact Cli.executeCommand_run_eq g env command reply hh hs
  · intro hh hs
    exact Cli.executeCommand_spawnFailure_eq g env command reply hh hs

/-- Witness for C4: a run whose trace hits the configured timeout on its
second iteration; the call still returns normally, the partial stdout line
is folded into the labeled result, the result is persisted, and
termination was invoked. -/
theorem c4_abort_folded_witness :
    Cli.executeCommand false
        ⟨[], false, true, true, false,
          [⟨["partial\n"], [], false, false, false⟩, ⟨[], [], false, true, false⟩], 100⟩
        "sleep 10" "" =
      Except.ok ⟨"stdout:\n```\npartial\n\n```",
        [("sleep 10", "stdout:\n```\npartial\n\n```")],
        false, true, true, true, false⟩ := by
  have h := (c4_abort_folded false
    ⟨[], false, true, true, false,
      [⟨["partial\n"], [], false, false, false⟩, ⟨[], [], false, true, false⟩], 100⟩
    "sleep 10" "").2.1 rfl (by decide)
  exact h.trans (by decide)

/-- C5: `terminate_process` is idempotent and total on both platform paths:
a second call on the same identifier changes nothing, and a call on an
identifier with no live process (already exited) is a no-op returning
normally — `OSError` is swallowed on POSIX, and `taskkill` without
`check=True` merely reports a non-zero exit code on Windows. -/
theorem c5_terminate_idempotent (w : Bool) (s : List Cli.OsProc) (pid : Int) :
    Cli.terminateProcess w (Cli.terminateProcess w s pid) pid
      = Cli.terminateProcess w s pid ∧
    ((∀ p ∈ s, p.group ≠ pid) → Cli.terminateProcess w s pid = s) := by
  have hfilter : ∀ (t : List Cli.OsProc),
      (t.filter (fun p => !(p.group == pid))).any (fun p => p.group == pid) = false := by
    intro t
    rw [List.any_eq_false]
    intro p hp
    have h2 := (List.mem_filter.mp hp).2
    simp at h2 ⊢
    exact h2
  constructor
  · cases w
    · by_cases hany : s.any (fun p => p.group == pid) = true
      · simp [Cli.terminateProcess, Cli.killpg, hany, hfilter]
      · have hf : s.any (fun p => p.group == pid) = false := by
          rwa [Bool.not_eq_true] at hany
        simp [Cli.terminateProcess, Cli.killpg, hf]
    · by_cases hany : s.any (fun p => p.group == pid) = true
      · simp [Cli.terminateProcess, Cli.taskkillTree, hany, hfilter]
      · have hf : s.any (fun p => p.group == pid) = false := by
          rwa [Bool.not_eq_true] at hany
        simp [Cli.terminateProcess, Cli.taskkillTree, hf]
  · intro hdead
    have hany : s.any (fun p => p.group == pid) = false := by
      rw [List.any_eq_false]
      intro p hp
      simp
      exact hdead p hp
    cases w
    · simp [Cli.terminateProcess, Cli.killpg, hany]
    · simp [Cli.terminateProcess, Cli.taskkillTree, hany]

/-- Witness for C5: killing the group of a live two-process session removes
it and a repeat call is a no-op, and terminating an identifier with no live
process returns the state unchanged, on the POSIX path. -/
theorem c5_terminate_idempotent_witness :
    Cli.terminateProcess false
        (Cli.terminateProcess false [⟨10, 10⟩, ⟨11, 10⟩, ⟨20, 20⟩] 10) 10
      = Cli.terminateProcess false [⟨10, 10⟩, ⟨11, 10⟩, ⟨20, 20⟩] 10 ∧
    Cli.terminateProcess false [⟨10, 10⟩] 99 = [⟨10, 10⟩] :=
  ⟨(c5_terminate_idempotent false [⟨10, 10⟩, ⟨11, 10⟩, ⟨20, 20⟩] 10).1,
   (c5_terminate_idempotent false [⟨10, 10⟩] 99).2 (by decide)⟩

/-- C6 fails on the code: the assignments `interrupted = False` (line 137)
and `interrupted = True` (line 182) lack a `global` declaration, so they
bind a variable local to `execute_command`; the module-level flag read by
the two drainers therefore never transitions to true.  Formally: every
completed invocation returns the module-level flag unchanged; a drainer
reading a constantly-false flag never breaks out early (it consumes its
whole stream); and on the concrete timeout run the local flag is true while
the module-level flag is still false. -/
theorem c6_interrupted_flag_bug :
    (∀ (g : Bool) (env : Cli.ExecEnv) (command reply : String) (o : Cli.ExecOutcome),
      Cli.executeCommand g env command reply = Except.ok o → o.globalInterrupted = g) ∧
    (∀ stream : List String, Cli.enqueueOutput (fun _ => false) stream = stream) ∧
    ((Cli.executeCommand false
        ⟨[], false, true, true, false, [⟨[], [], false, true, false⟩], 100⟩
        "sleep 10" "").map (fun o => (o.localInterrupted, o.globalInterrupted))
      = Except.ok (true, false)) := by
  refine ⟨?_, ?_, by decide⟩
  · intro g env command reply o h
    by_cases hh : ((Cli.lookupRun env.store
        (Cli.rewriteCommand command)).isSome && env.skipSteps) = true
    · rw [Cli.executeCommand_hist_eq g env command reply hh] at h
      cases h
      rfl
    · have hh2 : ((Cli.lookupRun env.store
          (Cli.rewriteCommand command)).isSome && env.skipSteps) = false :=
        Bool.not_eq_true _ ▸ Bool.of_not_eq_true hh
      by_cases hs : env.spawnFails = true
      · rw [Cli.executeCommand_spawnFailure_eq g env command reply hh2 hs] at h
        cases h
      · have hs2 : env.spawnFails = false := Bool.not_eq_true _ ▸ Bool.of_not_eq_true hs
        rw [Cli.executeCommand_run_eq g env command reply hh2 hs2] at h
        cases h
        rfl
  · intro stream
    induction stream with
    | nil => rfl
    | cons l ls ih => simp [Cli.enqueueOutput, ih]

/-- Witness for C6's universally quantified part at the concrete timeout
run: the returned outcome's module-level flag is still false. -/
theorem c6_interrupted_flag_bug_witness :
    (⟨"stdout:\n```\n\n```", [("sleep 10", "stdout:\n```\n\n```")],
        false, true, true, true, false⟩ : Cli.ExecOutcome).globalInterrupted = false :=
  c6_interrupted_flag_bug.1 false
    ⟨[], false, true, true, false, [⟨[], [], false, true, false⟩], 100⟩
    "sleep 10" ""
    ⟨"stdout:\n```\n\n```", [("sleep 10", "stdout:\n```\n\n```")],
      false, true, true, true, false⟩
    (by decide)

/-- C7: when a prior run of the command is in the history store and the
project reuses history (`skip_steps`), the stored response is returned with
no process spawned and the store untouched; and every call that actually
executes persists the pair of command text and result before returning. -/
theorem c7_history_replay (g : Bool) (env : Cli.ExecEnv) (command reply : String) :
    (∀ r, Cli.lookupRun env.store (Cli.rewriteCommand command) = some r →
      env.skipSteps = true →
      Cli.executeCommand g env command reply =
        Except.ok ⟨r, env.store, !env.force, false, false, false, g⟩) ∧
    (((Cli.lookupRun env.store (Cli.rewriteCommand command)).isSome && env.skipSteps) = false →
      env.spawnFails = false →
      ∃ o, Cli.executeCommand g env command reply = Except.ok o ∧
        o.spawned = true ∧
        o.store = env.store ++ [(Cli.rewriteCommand command, o.result)]) := by
  constructor
  · intro r hr hskip
    have hh : ((Cli.lookupRun env.store
        (Cli.rewriteCommand command)).isSome && env.skipSteps) = true := by
      rw [hr, hskip]
      rfl
    rw [Cli.executeCommand_hist_eq g env command reply hh, hr]
    rfl
  · intro hh hs
    refine ⟨_, Cli.executeCommand_run_eq g env command reply hh hs, rfl, rfl⟩

/-- Witness for C7: a cached `ls` is replayed without spawning, and a fresh
`echo hello` run is persisted with its own result. -/
theorem c7_history_replay_witness :
    Cli.executeCommand false ⟨[("ls", "cached")], true, false, false, false, [], 100⟩
        "ls" "x" =
      Except.ok ⟨"cached", [("ls", "cached")], true, false, false, false, false⟩ ∧
    (∃ o, Cli.executeCommand false
        ⟨[], false, true, false, false, [⟨["hello\n"], [], true, false, false⟩], 100⟩
        "echo hello" "" = Except.ok o ∧
      o.spawned = true ∧
      o.store = [] ++ [("echo hello", o.result)]) :=
  ⟨(c7_history_replay false ⟨[("ls", "cached")], true, false, false, false, [], 100⟩
      "ls" "x").1 "cached" (by decide) rfl,
   (c7_history_replay false
      ⟨[], false, true, false, false, [⟨["hello\n"], [], true, false, false⟩], 100⟩
      "echo hello" "").2 (by decide) rfl⟩

/-- C8: during the final post-exit drain, a queued line already contained
verbatim in the evolving buffer is suppressed, a line not contained is
appended, and consequently every line of the drained batch is contained in
the resulting buffer. -/
theorem c8_final_drain_dedup :
    (∀ (buf l : String) (ls : List String),
      Cli.pyContains buf l = true →
        Cli.finalDrain buf (l :: ls) = Cli.finalDrain buf ls) ∧
    (∀ (buf l : String) (ls : List String),
      Cli.pyContains buf l = false →
        Cli.finalDrain buf (l :: ls) = Cli.finalDrain (buf ++ l) ls) ∧
    (∀ (buf : String) (ls : List String) (l : String), l ∈ ls →
      Cli.pyContains (Cli.finalDrain buf ls) l = true) := by
  refine ⟨?_, ?_, fun buf ls l h => Cli.finalDrain_mem ls buf l h⟩
  · intro buf l ls h
    simp only [Cli.finalDrain]
    rw [if_pos h]
  · intro buf l ls h
    simp only [Cli.finalDrain]
    rw [if_neg (by simp [h])]

/-- Witness for C8 on a concrete batch: the duplicate head is suppressed,
a fresh line is appended, and both batch lines are contained afterwards. -/
theorem c8_final_drain_dedup_witness :
    Cli.finalDrain "a\n" ["a\n", "b\n"] = Cli.finalDrain "a\n" ["b\n"] ∧
    Cli.finalDrain "a\n" ["b\n"] = Cli.finalDrain "a\nb\n" [] ∧
    Cli.pyContains (Cli.finalDrain "a\n" ["a\n", "b\n"]) "b\n" = true := by
  refine ⟨c8_final_drain_dedup.1 "a\n" "a\n" ["b\n"] (by decide), ?_,
    c8_final_drain_dedup.2.2 "a\n" ["a\n", "b\n"] "b\n" (by decide)⟩
  have h := c8_final_drain_dedup.2.1 "a\n" "b\n" [] (by decide)
  rw [h]
  decide

/-- C10: the confirmation reply is never examined — two invocations
differing only in the reply are identical; with `force` false the prompt is
shown and, on the execution path, the command is spawned whatever the reply
was; with `force` true the prompt is skipped. -/
theorem c10_confirmation_reply_ignored (g : Bool) (env : Cli.ExecEnv) (command : String) :
    (∀ r1 r2 : String,
      Cli.executeCommand g env command r1 = Cli.executeCommand g env command r2) ∧
    (env.force = false →
      ((Cli.lookupRun env.store (Cli.rewriteCommand command)).isSome && env.skipSteps) = false →
      env.spawnFails = false →
      ∀ reply, ∃ o, Cli.executeCommand g env command reply = Except.ok o ∧
        o.promptShown = true ∧ o.spawned = true) ∧
    (env.force = true → env.spawnFails = false →
      ∀ reply, ∃ o, Cli.executeCommand g env command reply = Except.ok o ∧
        o.promptShown = false) := by
  refine ⟨fun r1 r2 => rfl, ?_, ?_⟩
  · intro hforce hh hs reply
    refine ⟨_, Cli.executeCommand_run_eq g env command reply hh hs, ?_, rfl⟩
    rw [hforce]
    rfl
  · intro hforce hs reply
    by_cases hh : ((Cli.lookupRun env.store
        (Cli.rewriteCommand command)).isSome && env.skipSteps) = true
    · refine ⟨_, Cli.executeCommand_hist_eq g env command reply hh, ?_⟩
      rw [hforce]
      rfl
    · refine ⟨_, Cli.executeCommand_run_eq g env command reply
        (Bool.not_eq_true _ ▸ Bool.of_not_eq_true hh) hs, ?_⟩
      rw [hforce]
      rfl

/-- Witness for C10: two runs of `echo hello` with `force` false and
different replies coincide, and the run spawns with the prompt shown. -/
theorem c10_confirmation_reply_ignored_witness :
    Cli.executeCommand false
        ⟨[], false, false, false, false, [⟨["hello\n"], [], true, false, false⟩], 100⟩
        "echo hello" "yes" =
      Cli.executeCommand false
        ⟨[], false, false, false, false, [⟨["hello\n"], [], true, false, false⟩], 100⟩
        "echo hello" "no" ∧
    (∃ o, Cli.executeCommand false
        ⟨[], false, false, false, false, [⟨["hello\n"], [], true, false, false⟩], 100⟩
        "echo hello" "whatever" = Except.ok o ∧
      o.promptShown = true ∧ o.spawned = true) :=
  ⟨(c10_confirmation_reply_ignored false
      ⟨[], false, false, false, false, [⟨["hello\n"], [], true, false, false⟩], 100⟩
      "echo hello").1 "yes" "no",
   (c10_confirmation_reply_ignored false
      ⟨[], false, false, false, false, [⟨["hello\n"], [], true, false, false⟩], 100⟩
      "echo hello").2.1 rfl (by decide) rfl "whatever"⟩
